import Mathlib

/-!
# Verification of the llama-stream reverse proxy (`llama-stream.py`)

A shallow embedding of the response-translation core of the proxy:

* `Json` models the values produced by Python's `json.loads` / `response.json()`
  (exactly: `None`, `bool`, numbers, `str`, `list`, `dict`).
* `simulate_streaming` embeds `ReverseProxy._simulate_streaming`.  The Python
  function is a generator over dynamically-typed data; inputs on which it would
  raise an exception before completing are mapped to `none` (every such raise in
  the source happens before the first `yield`, so no chunks are observed).
* `do_POST` / `do_GET` / `respondToBackendPOST` embed the handler orchestration,
  with the network call abstracted as an `Except TransportFault BackendResponse`
  value and the decode/parse of the raw body bytes abstracted as a `BodyParse`
  input distinguishing a UTF-8 decode failure from a JSON parse failure
  (UTF-8 decoding and JSON parsing of arbitrary bytes are external library
  code); the backend body's `response.json()` outcome is likewise an
  `Option Json` field of `BackendResponse`.
* the wall clock is passed explicitly as `now : Int` (the value of
  `int(time.time())` at emission time).
-/

namespace LlamaStream

/-- JSON values as returned by Python's `json.loads`: `null`, booleans, numbers,
strings, lists, and objects (ordered key/value lists; `json.loads` keeps the
last binding for a duplicated key).  Numbers are modelled as integers; no claim
involves fractional JSON numbers. -/
inductive Json where
  | null : Json
  | bool : Bool → Json
  | num : Int → Json
  | str : String → Json
  | arr : List Json → Json
  | obj : List (String × Json) → Json
deriving Repr

/-- Lookup of a key in an object's field list, keeping the last binding
(`json.loads` duplicate-key semantics). -/
def getInFields (k : String) : List (String × Json) → Option Json
  | [] => none
  | kv :: rest =>
    match getInFields k rest with
    | some v => some v
    | none => if kv.1 = k then some kv.2 else none

/-- Python `d.get(k)` / `d[k]` for a dict-valued `Json`; `none` on non-objects
(the source only applies it to dicts on non-raising paths). -/
def Json.get (j : Json) (k : String) : Option Json :=
  match j with
  | .obj fs => getInFields k fs
  | _ => none

/-- Python truthiness (`if x:`) of a JSON value. -/
def Json.truthy : Json → Bool
  | .null => false
  | .bool b => b
  | .num n => n != 0
  | .str s => s != ""
  | .arr xs => !xs.isEmpty
  | .obj fs => !fs.isEmpty

/-- Fuel-driven worker for `sliceChunks`; fuel `≥ xs.length` together with a
positive width makes the fuel-exhausted branch unreachable. -/
def sliceChunksAux (c : Nat) : Nat → List α → List (List α)
  | 0, _ => []
  | _, [] => []
  | fuel + 1, xs => xs.take c :: sliceChunksAux c fuel (xs.drop c)

/-- Consecutive non-overlapping slices of width `c` (the last may be shorter):
the Python loop `for i in range(0, len(s), c): s[i:i+c]`.  A zero width is not
produced here (Python's `range` raises `ValueError` on step 0); callers guard
it. -/
def sliceChunks (c : Nat) (xs : List α) : List (List α) :=
  sliceChunksAux c xs.length xs

/-- Hexadecimal digit character, lowercase (as `json.dumps` emits). -/
def hexDigit (n : Nat) : Char :=
  if n < 10 then Char.ofNat (48 + n) else Char.ofNat (87 + n)

/-- Four-digit hexadecimal rendering of a code unit for a `\uXXXX` escape. -/
def hex4 (n : Nat) : String :=
  String.mk [hexDigit (n / 4096 % 16), hexDigit (n / 256 % 16),
             hexDigit (n / 16 % 16), hexDigit (n % 16)]

/-- Escaping of one character following `json.dumps` defaults
(`ensure_ascii=True`): printable ASCII except quote and backslash is literal,
named escapes for the usual control characters, `\uXXXX` otherwise, with
surrogate pairs above the BMP. -/
def escapeJsonChar (c : Char) : String :=
  if c = '"' then "\\\""
  else if c = '\\' then "\\\\"
  else if c = '\n' then "\\n"
  else if c = '\r' then "\\r"
  else if c = '\t' then "\\t"
  else if c.toNat = 8 then "\\b"
  else if c.toNat = 12 then "\\f"
  else if c.toNat < 32 || c.toNat > 126 then
    if c.toNat < 65536 then "\\u" ++ hex4 c.toNat
    else
      "\\u" ++ hex4 (55296 + (c.toNat - 65536) / 1024) ++
      "\\u" ++ hex4 (56320 + (c.toNat - 65536) % 1024)
  else String.mk [c]

/-- A JSON string literal as `json.dumps` renders it. -/
def escapeJsonString (s : String) : String :=
  "\"" ++ String.join (s.data.map escapeJsonChar) ++ "\""

mutual

/-- Python `json.dumps` with default separators (`", "` and `": "`), insertion
order preserved. -/
def Json.dumps : Json → String
  | .null => "null"
  | .bool true => "true"
  | .bool false => "false"
  | .num n => toString n
  | .str s => escapeJsonString s
  | .arr xs => "[" ++ dumpsList xs ++ "]"
  | .obj fs => "\x7b" ++ dumpsFields fs ++ "\x7d"

/-- Comma-separated rendering of array elements. -/
def dumpsList : List Json → String
  | [] => ""
  | [x] => Json.dumps x
  | x :: y :: rest => Json.dumps x ++ ", " ++ dumpsList (y :: rest)

/-- Comma-separated rendering of object fields. -/
def dumpsFields : List (String × Json) → String
  | [] => ""
  | [kv] => escapeJsonString kv.1 ++ ": " ++ Json.dumps kv.2
  | kv :: kv2 :: rest =>
    escapeJsonString kv.1 ++ ": " ++ Json.dumps kv.2 ++ ", " ++
    dumpsFields (kv2 :: rest)

end

/-- The `delta` dict carried by one streamed choice: each field is present
(`some`) or absent from the dict (`none`).  The source builds `delta` as one of
`\x7b"role","content","tool_calls"\x7d` (tool branch),
`\x7b"role","content"\x7d` (first content slice), `\x7b"content"\x7d`
(later slices), or `\x7b\x7d`. -/
structure Delta where
  role : Option String
  content : Option Json
  tool_calls : Option Json
deriving Repr

/-- One element of a chunk's `choices` list. -/
structure ChunkChoice where
  index : Nat
  delta : Delta
  finish_reason : Option String
deriving Repr

/-- One yielded streaming chunk (the dict yielded by `_simulate_streaming`,
keys in insertion order `id, object, created, model, choices`). -/
structure StreamChunk where
  id : Json
  object : Json
  created : Json
  model : Json
  choices : List ChunkChoice
deriving Repr

/-- The shared `base_event_data` dict (lines 189–195 of the source). -/
structure BaseEvent where
  id : Json
  object : Json
  created : Json
  model : Json
deriving Repr

/-- `base_event_data`: `id`, `object`, `created`, `model` from the response
with the source's defaults; `now` is the value of `int(time.time())`. -/
def base_event_data (response_data : Json) (now : Int) : BaseEvent :=
  { id := (response_data.get "id").getD (.str "chatcmpl-default-id"),
    object := (response_data.get "object").getD (.str "chat.completion.chunk"),
    created := (response_data.get "created").getD (.num now),
    model := (response_data.get "model").getD (.str "gpt-3.5-turbo-0613") }

/-- A chunk built from `base_event_data` plus a `choices` list (the
`\x7b**base_event_data, "choices": [...]\x7d` spread). -/
def mkChunk (b : BaseEvent) (cs : List ChunkChoice) : StreamChunk :=
  { id := b.id, object := b.object, created := b.created, model := b.model,
    choices := cs }

/-- The final content-branch chunk: empty delta, `finish_reason = "stop"`. -/
def stopChunk (b : BaseEvent) : StreamChunk :=
  mkChunk b [⟨0, ⟨none, none, none⟩, some "stop"⟩]

/-- The single tool-call chunk:
`delta = \x7b"role": "assistant", "content": None, "tool_calls": tool_calls\x7d`,
`finish_reason = "tool_calls"`. -/
def toolChunk (b : BaseEvent) (tool_calls : Json) : StreamChunk :=
  mkChunk b [⟨0, ⟨some "assistant", some Json.null, some tool_calls⟩, some "tool_calls"⟩]

/-- The non-terminal content chunks, one per slice, `finish_reason = None`.
The loop index `i` is `0` exactly on the first slice, which therefore carries
`"role": "assistant"`; later slices carry only `"content"`. -/
def contentChunkSeq (b : BaseEvent) : List Json → List StreamChunk
  | [] => []
  | piece :: rest =>
    mkChunk b [⟨0, ⟨some "assistant", some piece, none⟩, none⟩] ::
    rest.map (fun p => mkChunk b [⟨0, ⟨none, some p, none⟩, none⟩])

/-- Python `content[i:i+c]` slicing over `range(0, len(content), c)`:
defined for the sliceable JSON values (`str` by code point, `list` by element);
`none` models the `TypeError` of `len` on other values and the `ValueError` of
`range` on step 0. -/
def pySlices (c : Nat) : Json → Option (List Json)
  | .str s =>
    if c = 0 then none
    else some ((sliceChunks c s.data).map (fun l => Json.str (String.mk l)))
  | .arr xs =>
    if c = 0 then none
    else some ((sliceChunks c xs).map Json.arr)
  | _ => none

/-- The escape-hatch chunk for a response without usable `choices`: the whole
response is serialized into `delta.content`; `id` is copied when present, the
other metadata fields are fixed literals and the current time. -/
def escapeChunk (response_data : Json) (now : Int) : StreamChunk :=
  { id := (response_data.get "id").getD (.str "chatcmpl-default-id"),
    object := .str "chat.completion.chunk",
    created := .num now,
    model := .str "unknown-model",
    choices := [⟨0, ⟨none, some (.str (Json.dumps response_data)), none⟩, none⟩] }

/-- The terminal chunk of the escape hatch: empty delta,
`finish_reason = "stop"`, same fixed metadata. -/
def escapeStopChunk (response_data : Json) (now : Int) : StreamChunk :=
  { id := (response_data.get "id").getD (.str "chatcmpl-default-id"),
    object := .str "chat.completion.chunk",
    created := .num now,
    model := .str "unknown-model",
    choices := [⟨0, ⟨none, none, none⟩, some "stop"⟩] }

/-- The branch body for a usable `choices` list (first element `choice`):
`message = choice.get("message", \x7b\x7d)`,
`content = message.get("content", "")`,
`tool_calls = message.get("tool_calls", None)`, then the three-way branch.
A non-dict `choice` or a non-dict `message` raises `AttributeError` before any
yield (`none`). -/
def mainBranch (streaming_chunk_size : Nat) (b : BaseEvent) (choice : Json) :
    Option (List StreamChunk) :=
  match choice with
  | .obj _ =>
    match (choice.get "message").getD (.obj []) with
    | .obj mfields =>
      let message := Json.obj mfields
      let content := (message.get "content").getD (.str "")
      let tool_calls := (message.get "tool_calls").getD .null
      if tool_calls.truthy then
        some [toolChunk b tool_calls]
      else if content.truthy then
        (pySlices streaming_chunk_size content).map
          (fun pieces => contentChunkSeq b pieces ++ [stopChunk b])
      else
        some [stopChunk b]
    | _ => none
  | _ => none

/-- `ReverseProxy._simulate_streaming` (lines 177–265), as the full chunk list
the generator yields.  `none` models inputs on which the Python raises (always
before the first yield): a non-dict `response_data` (the `"choices" in` test or
the escape branch's `.get` raises), a non-dict first choice or `message`, a
non-sliceable truthy `content`, and chunk size 0. -/
def simulate_streaming (streaming_chunk_size : Nat) (now : Int)
    (response_data : Json) : Option (List StreamChunk) :=
  match response_data with
  | .obj _ =>
    match response_data.get "choices" with
    | some (.arr (choice :: _)) =>
      mainBranch streaming_chunk_size (base_event_data response_data now) choice
    | _ =>
      some [escapeChunk response_data now, escapeStopChunk response_data now]
  | _ => none

/-- Whether the `"choices" in response_data and isinstance(..., list) and
response_data["choices"]` test succeeds (the non-escape branches). -/
def choicesBranchTaken (response_data : Json) : Bool :=
  match response_data.get "choices" with
  | some (.arr (_ :: _)) => true
  | _ => false

/-- Whether the tool-call branch is the one taken (meaningful on inputs where
the emitter completes). -/
def toolBranchTaken (response_data : Json) : Bool :=
  match response_data.get "choices" with
  | some (.arr (choice :: _)) =>
    ((((choice.get "message").getD (.obj [])).get "tool_calls").getD .null).truthy
  | _ => false

/-! ## Handler orchestration (`do_GET`, `do_POST`, `_perform_request`) -/

/-- JSON rendering of a `delta` dict for the SSE frame (`json.dumps` of the
dict, keys in the insertion order `role, content, tool_calls`). -/
def Delta.toJson (d : Delta) : Json :=
  Json.obj
    ((match d.role with | some r => [("role", Json.str r)] | none => []) ++
     (match d.content with | some c => [("content", c)] | none => []) ++
     (match d.tool_calls with | some t => [("tool_calls", t)] | none => []))

/-- JSON rendering of one `choices` element. -/
def ChunkChoice.toJson (c : ChunkChoice) : Json :=
  Json.obj [("index", .num c.index), ("delta", c.delta.toJson),
            ("finish_reason",
             match c.finish_reason with | some s => .str s | none => .null)]

/-- JSON rendering of a yielded chunk dict. -/
def StreamChunk.toJson (ch : StreamChunk) : Json :=
  Json.obj [("id", ch.id), ("object", ch.object), ("created", ch.created),
            ("model", ch.model),
            ("choices", .arr (ch.choices.map ChunkChoice.toJson))]

/-- One SSE frame: the bytes of `f"data: \x7bjson.dumps(chunk)\x7d\n\n"`. -/
def sseFrame (ch : StreamChunk) : String :=
  "data: " ++ Json.dumps ch.toJson ++ "\n\n"

/-- A backend reply as the handler sees it.  `body` is the raw byte content
(`response.content`, one code point per byte); `parsedJson` abstracts
`response.json()`, with `none` for a `json.JSONDecodeError`. -/
structure BackendResponse where
  status : Nat
  headers : List (String × String)
  body : String
  parsedJson : Option Json

/-- What the handler sends back over the client socket for one request. -/
structure ClientResponse where
  status : Nat
  headers : List (String × String)
  body : List String
deriving Repr, DecidableEq

/-- Outcome of one handler invocation: a normal response, a `send_error`
status, no bytes at all (the `if response:` falsy path for a 4xx/5xx backend
reply), or an unhandled Python exception. -/
inductive ClientOutcome where
  | response : ClientResponse → ClientOutcome
  | error : Nat → ClientOutcome
  | nothing : ClientOutcome
  | crash : ClientOutcome
deriving Repr, DecidableEq

/-- ASCII lowercasing of one character (`str.lower`; the header names compared
in the source are ASCII). -/
def lowerChar (c : Char) : Char :=
  if 65 ≤ c.toNat ∧ c.toNat ≤ 90 then Char.ofNat (c.toNat + 32) else c

/-- ASCII `str.lower` on a string. -/
def lowerString (s : String) : String :=
  String.mk (s.data.map lowerChar)

/-- Case-insensitive header lookup with default:
`headers.get(k, d)` on a requests `CaseInsensitiveDict`. -/
def headerGet (hs : List (String × String)) (k d : String) : String :=
  match hs.find? (fun kv => lowerString kv.1 = lowerString k) with
  | some kv => kv.2
  | none => d

/-- Python `needle in hay` substring containment on strings. -/
def strContains (hay needle : String) : Bool :=
  (List.range (hay.data.length + 1)).any
    (fun i => needle.data.isPrefixOf (hay.data.drop i))

/-- The passthrough header allow-list filter:
`key.lower() in ["content-type", "content-length", "date"]`. -/
def allowListedHeaders (hs : List (String × String)) : List (String × String) :=
  hs.filter (fun kv => lowerString kv.1 ∈ ["content-type", "content-length", "date"])

/-- The fixed headers sent before simulated streaming (lines 148–150). -/
def sseHeaders : List (String × String) :=
  [("Content-Type", "text/event-stream"), ("Cache-Control", "no-cache"),
   ("Connection", "close")]

/-- The passthrough path: copy the status, forward only allow-listed headers,
stream the body in 8 KiB blocks (`iter_content(chunk_size=8192)`). -/
def passthroughOutcome (resp : BackendResponse) : ClientOutcome :=
  .response { status := resp.status,
              headers := allowListedHeaders resp.headers,
              body := (sliceChunks 8192 resp.body.data).map String.mk }

/-- `do_POST` lines 144–175, from `if response:` on.  `Response.__bool__` is
`status_code < 400`, so a 4xx/5xx backend reply makes the handler return
without writing anything.  In the transform branch the SSE headers are sent
before `response.json()` is attempted; on a parse failure the raw body is
written under those already-sent headers.  A raising emitter is `crash` (the
headers and possibly some frames were written first). -/
def respondToBackendPOST (streaming_chunk_size : Nat) (now : Int)
    (resp : BackendResponse) : ClientOutcome :=
  if resp.status < 400 then
    if resp.status == 200 &&
        strContains (headerGet resp.headers "Content-Type" "") "application/json" then
      match resp.parsedJson with
      | none =>
        .response { status := 200, headers := sseHeaders, body := [resp.body] }
      | some response_json_data =>
        match simulate_streaming streaming_chunk_size now response_json_data with
        | some chunks =>
          .response { status := 200, headers := sseHeaders,
                      body := chunks.map sseFrame ++ ["data: [DONE]\n\n"] }
        | none => .crash
    else
      passthroughOutcome resp
  else
    .nothing

/-- The four `except` arms of `_perform_request` (lines 91–106); the arms are
tried in source order, so `requests.exceptions.SSLError` (a `ConnectionError`
subclass) is classified as `ssl`. -/
inductive TransportFault where
  | ssl : TransportFault
  | connection : TransportFault
  | timeout : TransportFault
  | other : TransportFault
deriving Repr, DecidableEq

/-- The `send_error` status for each transport fault
(502 / 503 / 504 / 500). -/
def errorStatus : TransportFault → Nat
  | .ssl => 502
  | .connection => 503
  | .timeout => 504
  | .other => 500

/-- Accumulating digit-run worker for `pyIntDigits`. -/
def pyIntDigitsGo (acc : Nat) : List Char → Option Nat
  | [] => some acc
  | '_' :: c :: rest =>
    if c.isDigit then pyIntDigitsGo (acc * 10 + (c.toNat - 48)) rest else none
  | c :: rest =>
    if c.isDigit then pyIntDigitsGo (acc * 10 + (c.toNat - 48)) rest else none

/-- Digit run of Python `int()`, with PEP 515 single-underscore grouping
(`int("1_0") = 10`, `int("1__0")` and trailing or leading underscores raise). -/
def pyIntDigits : List Char → Option Nat
  | [] => none
  | c :: rest => if c.isDigit then pyIntDigitsGo (c.toNat - 48) rest else none

/-- Whitespace as `int()` strips it (the ASCII part; the header values in the
claims are ASCII). -/
def pyWhitespace (c : Char) : Bool :=
  c = ' ' || c = '\t' || c = '\n' || c = '\r' || c.toNat = 11 || c.toNat = 12

/-- Strip leading and trailing whitespace from a character list. -/
def pyStrip (cs : List Char) : List Char :=
  (((cs.dropWhile pyWhitespace).reverse).dropWhile pyWhitespace).reverse

/-- Python `int(s)` on a string: surrounding whitespace stripped, optional
sign, non-empty digit run; `none` models the `ValueError` raise. -/
def pyInt (s : String) : Option Int :=
  match pyStrip s.data with
  | '+' :: rest => (pyIntDigits rest).map Int.ofNat
  | '-' :: rest => (pyIntDigits rest).map (fun n => -(n : Int))
  | rest => (pyIntDigits rest).map Int.ofNat

/-- `int(self.headers['Content-Length'])`: a missing header gives `None`
(`int(None)` raises `TypeError`), an unparseable value raises `ValueError`;
`none` models either raise. -/
def parsedContentLength (h : Option String) : Option Int :=
  h.bind pyInt

/-- `request_data['stream'] = False` on the parsed body: updates the binding in
place when the key exists, appends it otherwise; `none` models the `TypeError`
of item assignment on a non-dict `json.loads` result. -/
def setStreamFalse (j : Json) : Option Json :=
  match j with
  | .obj fs =>
    some (.obj (if fs.any (fun kv => kv.1 = "stream")
                then fs.map (fun kv => if kv.1 = "stream" then (kv.1, Json.bool false) else kv)
                else fs ++ [("stream", Json.bool false)]))
  | _ => none

/-- Result of one `do_POST` invocation: the JSON payload of the outbound
backend call when one was attempted, and the client-visible outcome. -/
structure PostResult where
  forwarded : Option Json
  outcome : ClientOutcome

/-- Outcome of `json.loads(post_data_bytes.decode('utf-8'))` on the body bytes
(line 130).  The two failure modes are distinct in the source: a body that is
not valid UTF-8 makes `bytes.decode('utf-8')` raise `UnicodeDecodeError`,
which the `except json.JSONDecodeError` clause at line 131 does not catch
(`UnicodeDecodeError` is a `ValueError`, not a `JSONDecodeError`), so it
propagates; a body that decodes but is not valid JSON raises the caught
`JSONDecodeError`. -/
inductive BodyParse where
  | notUtf8 : BodyParse
  | notJson : BodyParse
  | json : Json → BodyParse

/-- `ReverseProxy.do_POST` (lines 125–175).  Inputs: the `Content-Length`
header value, the decode/parse outcome for the body bytes read (`notUtf8` for
an uncaught `UnicodeDecodeError` from `.decode('utf-8')`, `notJson` for a
caught `JSONDecodeError`), and the backend as a function from the forwarded
JSON to a transport fault or response. -/
def do_POST (streaming_chunk_size : Nat) (now : Int)
    (contentLength : Option String) (bodyParse : BodyParse)
    (backend : Json → Except TransportFault BackendResponse) : PostResult :=
  match parsedContentLength contentLength with
  | none => ⟨none, .crash⟩
  | some _ =>
    match bodyParse with
    | .notUtf8 => ⟨none, .crash⟩
    | .notJson => ⟨none, .error 400⟩
    | .json request_data =>
      match setStreamFalse request_data with
      | none => ⟨none, .crash⟩
      | some forwarded_data =>
        match backend forwarded_data with
        | .error f => ⟨some forwarded_data, .error (errorStatus f)⟩
        | .ok resp =>
          ⟨some forwarded_data, respondToBackendPOST streaming_chunk_size now resp⟩

/-- `ReverseProxy.do_GET` (lines 108–123): only `/v1/models` is forwarded;
the reply goes through the passthrough path when `if response:` is truthy
(status < 400) and produces nothing otherwise; any other path is a 404. -/
def do_GET (path : String)
    (backend : Except TransportFault BackendResponse) : ClientOutcome :=
  if path = "/v1/models" then
    match backend with
    | .error f => .error (errorStatus f)
    | .ok resp => if resp.status < 400 then passthroughOutcome resp else .nothing
  else
    .error 404

/-! ## Helper lemmas about slicing -/

theorem sliceChunksAux_nil (c : Nat) (fuel : Nat) :
    sliceChunksAux c fuel ([] : List α) = [] := by
  cases fuel <;> rfl

theorem drop_length_le_of_le (c n : Nat) (x : α) (rest : List α)
    (hc : 1 ≤ c) (h : (x :: rest).length ≤ n + 1) :
    ((x :: rest).drop c).length ≤ n := by
  rw [List.length_drop]
  simp only [List.length_cons] at h ⊢
  omega

theorem sliceChunksAux_flatten (c : Nat) (hc : 1 ≤ c) :
    ∀ (fuel : Nat) (xs : List α), xs.length ≤ fuel →
      (sliceChunksAux c fuel xs).flatten = xs := by
  intro fuel
  induction fuel with
  | zero =>
    intro xs h
    have hx : xs = [] := List.eq_nil_of_length_eq_zero (Nat.le_zero.mp h)
    subst hx; rfl
  | succ n ih =>
    intro xs h
    match xs with
    | [] => rfl
    | x :: rest =>
      have hlen := drop_length_le_of_le c n x rest hc h
      simp only [sliceChunksAux, List.flatten]
      rw [ih _ hlen, List.take_append_drop]

theorem ceil_div_step (c L : Nat) (hc : 1 ≤ c) (hL : 1 ≤ L) :
    (L - c + c - 1) / c + 1 = (L + c - 1) / c := by
  rcases Nat.le_total L c with hle | hge
  · have h1 : L - c = 0 := by omega
    have h2 : (L + c - 1) / c = 1 := by
      apply Nat.div_eq_of_lt_le
      · omega
      · omega
    rw [h1, h2]
    simp [Nat.div_eq_of_lt (by omega : c - 1 < c)]
  · have h1 : L - c + c - 1 = L - 1 := by omega
    have h2 : L + c - 1 = (L - 1) + c := by omega
    rw [h1, h2, Nat.add_div_right _ (by omega : 0 < c)]

theorem sliceChunksAux_length (c : Nat) (hc : 1 ≤ c) :
    ∀ (fuel : Nat) (xs : List α), xs.length ≤ fuel →
      (sliceChunksAux c fuel xs).length = (xs.length + c - 1) / c := by
  intro fuel
  induction fuel with
  | zero =>
    intro xs h
    have hx : xs = [] := List.eq_nil_of_length_eq_zero (Nat.le_zero.mp h)
    subst hx
    simp [sliceChunksAux, Nat.div_eq_of_lt (by omega : c - 1 < c)]
  | succ n ih =>
    intro xs h
    match xs with
    | [] => simp [sliceChunksAux, Nat.div_eq_of_lt (by omega : c - 1 < c)]
    | x :: rest =>
      have hlen := drop_length_le_of_le c n x rest hc h
      simp only [sliceChunksAux, List.length_cons, ih _ hlen, List.length_drop]
      exact ceil_div_step c (rest.length + 1) hc (by omega)

theorem sliceChunksAux_ne_nil (c : Nat) (fuel : Nat) (xs : List α)
    (hxs : xs ≠ []) (h : xs.length ≤ fuel) :
    sliceChunksAux c fuel xs ≠ [] := by
  match fuel, xs with
  | 0, xs => cases hxs (List.eq_nil_of_length_eq_zero (Nat.le_zero.mp h))
  | n + 1, x :: rest => simp [sliceChunksAux]

theorem sliceChunksAux_mem (c : Nat) (hc : 1 ≤ c) :
    ∀ (fuel : Nat) (xs : List α), xs.length ≤ fuel →
      ∀ l ∈ sliceChunksAux c fuel xs, l ≠ [] ∧ l.length ≤ c := by
  intro fuel
  induction fuel with
  | zero =>
    intro xs h
    have hx : xs = [] := List.eq_nil_of_length_eq_zero (Nat.le_zero.mp h)
    subst hx; intro l hl; cases hl
  | succ n ih =>
    intro xs h l hl
    match xs with
    | [] => cases hl
    | x :: rest =>
      have hlen := drop_length_le_of_le c n x rest hc h
      simp only [sliceChunksAux, List.mem_cons] at hl
      rcases hl with rfl | hl
      · refine ⟨List.ne_nil_of_length_pos ?_, ?_⟩
        · rw [List.length_take]
          simp only [List.length_cons]
          omega
        · rw [List.length_take]
          exact min_le_left _ _
      · exact ih _ hlen l hl

theorem sliceChunksAux_dropLast (c : Nat) (hc : 1 ≤ c) :
    ∀ (fuel : Nat) (xs : List α), xs.length ≤ fuel →
      ∀ l ∈ (sliceChunksAux c fuel xs).dropLast, l.length = c := by
  intro fuel
  induction fuel with
  | zero =>
    intro xs h
    have hx : xs = [] := List.eq_nil_of_length_eq_zero (Nat.le_zero.mp h)
    subst hx; intro l hl; cases hl
  | succ n ih =>
    intro xs h l hl
    match xs with
    | [] => cases hl
    | x :: rest =>
      have hlen := drop_length_le_of_le c n x rest hc h
      simp only [sliceChunksAux] at hl
      by_cases hdrop : (x :: rest).drop c = []
      · rw [hdrop, sliceChunksAux_nil] at hl
        cases hl
      · rw [List.dropLast_cons_of_ne_nil (sliceChunksAux_ne_nil c n _ hdrop hlen)] at hl
        rcases List.mem_cons.mp hl with rfl | hl
        · have hge : c ≤ (x :: rest).length := by
            by_contra hlt
            exact hdrop (List.drop_eq_nil_of_le (by omega))
          rw [List.length_take]
          omega
        · exact ih _ hlen l hl

theorem sliceChunks_flatten (c : Nat) (hc : 1 ≤ c) (xs : List α) :
    (sliceChunks c xs).flatten = xs :=
  sliceChunksAux_flatten c hc xs.length xs le_rfl

theorem sliceChunks_length (c : Nat) (hc : 1 ≤ c) (xs : List α) :
    (sliceChunks c xs).length = (xs.length + c - 1) / c :=
  sliceChunksAux_length c hc xs.length xs le_rfl

theorem sliceChunks_mem (c : Nat) (hc : 1 ≤ c) (xs : List α) :
    ∀ l ∈ sliceChunks c xs, l ≠ [] ∧ l.length ≤ c :=
  sliceChunksAux_mem c hc xs.length xs le_rfl

theorem sliceChunks_dropLast (c : Nat) (hc : 1 ≤ c) (xs : List α) :
    ∀ l ∈ (sliceChunks c xs).dropLast, l.length = c :=
  sliceChunksAux_dropLast c hc xs.length xs le_rfl

/-! ## Helper lemmas about the emitted chunk sequences -/

theorem Json.get_some_obj (j : Json) (k : String) (v : Json)
    (h : j.get k = some v) : ∃ fs, j = .obj fs := by
  cases j with
  | obj fs => exact ⟨fs, rfl⟩
  | null => cases h
  | bool b => cases h
  | num n => cases h
  | str s => cases h
  | arr xs => cases h

theorem contentChunkSeq_length (b : BaseEvent) (ps : List Json) :
    (contentChunkSeq b ps).length = ps.length := by
  cases ps <;> simp [contentChunkSeq]

theorem contentChunkSeq_mem (b : BaseEvent) (ps : List Json) :
    ∀ ch ∈ contentChunkSeq b ps, ∃ p, ch = mkChunk b [⟨0, ⟨some "assistant", some p, none⟩, none⟩] ∨
      ch = mkChunk b [⟨0, ⟨none, some p, none⟩, none⟩] := by
  cases ps with
  | nil => intro ch h; cases h
  | cons p rest =>
    intro ch h
    rcases List.mem_cons.mp h with rfl | h
    · exact ⟨p, Or.inl rfl⟩
    · rcases List.mem_map.mp h with ⟨q, hq, rfl⟩
      exact ⟨q, Or.inr rfl⟩

theorem contentChunkSeq_contents (b : BaseEvent) (ps : List Json) :
    (contentChunkSeq b ps).map (fun ch => ch.choices.map (fun c => c.delta.content)) =
      ps.map (fun p => [some p]) := by
  cases ps with
  | nil => rfl
  | cons p rest =>
    simp [contentChunkSeq, mkChunk, List.map_map, Function.comp]

/-- Case analysis on a completed emitter run: the four branch shapes of
`_simulate_streaming`, together with the branch-selection predicates. -/
theorem simulate_streaming_cases (sz : Nat) (now : Int) (rd : Json)
    (chunks : List StreamChunk)
    (h : simulate_streaming sz now rd = some chunks) :
    (∃ pieces, chunks = contentChunkSeq (base_event_data rd now) pieces ++
        [stopChunk (base_event_data rd now)] ∧
      toolBranchTaken rd = false ∧ choicesBranchTaken rd = true) ∨
    (∃ tc, chunks = [toolChunk (base_event_data rd now) tc] ∧
      toolBranchTaken rd = true ∧ choicesBranchTaken rd = true) ∨
    (chunks = [stopChunk (base_event_data rd now)] ∧
      toolBranchTaken rd = false ∧ choicesBranchTaken rd = true) ∨
    (chunks = [escapeChunk rd now, escapeStopChunk rd now] ∧
      toolBranchTaken rd = false ∧ choicesBranchTaken rd = false) := by
  cases rd with
  | obj fs =>
    simp only [simulate_streaming] at h
    split at h
    · rename_i choice rest heq
      have hcb : choicesBranchTaken (Json.obj fs) = true := by
        simp [choicesBranchTaken, heq]
      have htb : toolBranchTaken (Json.obj fs) =
          ((((choice.get "message").getD (.obj [])).get "tool_calls").getD .null).truthy := by
        simp [toolBranchTaken, heq]
      simp only [mainBranch] at h
      split at h
      · rename_i cfs
        split at h
        · rename_i mfields hmeq
          rw [hmeq] at htb
          split at h
          · rename_i htc
            right; left
            refine ⟨_, (Option.some.injEq _ _ ▸ h).symm, ?_, hcb⟩
            rw [htb]; exact htc
          · rename_i htc
            split at h
            · rename_i hcont
              rcases Option.map_eq_some'.mp h with ⟨pieces, hps, hchunks⟩
              left
              refine ⟨pieces, hchunks.symm, ?_, hcb⟩
              rw [htb]; simpa using htc
            · rename_i hcont
              right; right; left
              refine ⟨(Option.some.injEq _ _ ▸ h).symm, ?_, hcb⟩
              rw [htb]; simpa using htc
        · cases h
      · cases h
    · rename_i hne
      have hcb : choicesBranchTaken (Json.obj fs) = false := by
        unfold choicesBranchTaken
        split
        · rename_i choice rest heq
          exact (hne choice rest heq).elim
        · rfl
      have htb : toolBranchTaken (Json.obj fs) = false := by
        unfold toolBranchTaken
        split
        · rename_i choice rest heq
          exact (hne choice rest heq).elim
        · rfl
      right; right; right
      exact ⟨(Option.some.injEq _ _ ▸ h).symm, htb, hcb⟩
  | null => cases h
  | bool b => cases h
  | num n => cases h
  | str s => cases h
  | arr xs => cases h

/-! ## Claim theorems -/

/-- C10: for every POST request that lacks a `Content-Length` header (so
`self.headers['Content-Length']` is `None`) or whose value Python's `int`
rejects, `do_POST` raises an unhandled exception before reading the body or
producing any classified error response: no 400 is sent and nothing is
forwarded to the backend. -/
theorem post_crashes_without_content_length (sz : Nat) (now : Int)
    (contentLength : Option String) (bodyParse : BodyParse)
    (backend : Json → Except TransportFault BackendResponse)
    (h : parsedContentLength contentLength = none) :
    do_POST sz now contentLength bodyParse backend = ⟨none, .crash⟩ := by
  unfold do_POST
  rw [h]

/-- Witness for C10 at a concrete input: a POST with no `Content-Length`
header crashes without forwarding. -/
theorem post_crashes_without_content_length_witness :
    do_POST 50 0 none (BodyParse.json (Json.obj []))
        (fun _ => Except.error TransportFault.other) =
      ⟨none, ClientOutcome.crash⟩ :=
  post_crashes_without_content_length 50 0 none (BodyParse.json (Json.obj [])) _ rfl

/-- C8 (amended): for every POST request with a parseable `Content-Length`
whose body decodes as UTF-8 but fails to parse as JSON (`json.loads` raises
the caught `JSONDecodeError`), the client receives status 400 and no outbound
request to the backend is made; a body that is not valid UTF-8 — also not
valid JSON — instead makes `post_data_bytes.decode('utf-8')` raise an
uncaught `UnicodeDecodeError`: the handler crashes, no 400 is sent, and
nothing is forwarded. -/
theorem invalid_json_body_400 (sz : Nat) (now : Int) (cl : Option String)
    (n : Int) (backend : Json → Except TransportFault BackendResponse)
    (hcl : parsedContentLength cl = some n) :
    do_POST sz now cl .notJson backend = ⟨none, .error 400⟩ ∧
    do_POST sz now cl .notUtf8 backend = ⟨none, .crash⟩ := by
  constructor <;> (unfold do_POST; rw [hcl])

/-- Witness for the amended C8 at a concrete input: `Content-Length: 17`,
UTF-8 body that is not JSON. -/
theorem invalid_json_body_400_witness :
    do_POST 50 0 (some "17") BodyParse.notJson
        (fun _ => Except.error TransportFault.other) =
      ⟨none, ClientOutcome.error 400⟩ :=
  (invalid_json_body_400 50 0 (some "17") 17
    (fun _ => Except.error TransportFault.other) rfl).1

/-- Counterexample to C8 as stated: a POST body that is not valid UTF-8 (such
as the single byte `0xff` under `Content-Length: 1`) is not valid JSON, yet
the client does not receive 400 — the handler crashes on the uncaught
`UnicodeDecodeError` from line 130 before the `json.loads` guard is reached. -/
theorem non_utf8_body_no_400_counterexample :
    do_POST 50 0 (some "1") BodyParse.notUtf8
        (fun _ => Except.error TransportFault.other) =
      ⟨none, ClientOutcome.crash⟩ ∧
    ClientOutcome.crash ≠ ClientOutcome.error 400 := by
  constructor
  · rfl
  · decide

/-- C7: every outbound backend call that fails with a transport fault yields
exactly one `send_error` response whose status is 502 for a TLS error, 503 for
a connection error, 504 for a timeout and 500 for any other fault; no backend
response is produced (the outcome is an error, not a response) and the single
backend function application is the only attempt.  Holds on both the POST and
the GET path. -/
theorem transport_fault_mapped_once (sz : Nat) (now : Int) (cl : Option String)
    (n : Int) (fs : List (String × Json)) (f : TransportFault)
    (hcl : parsedContentLength cl = some n) :
    (do_POST sz now cl (.json (Json.obj fs)) (fun _ => Except.error f)).outcome =
      .error (errorStatus f) ∧
    (do_POST sz now cl (.json (Json.obj fs)) (fun _ => Except.error f)).forwarded =
      setStreamFalse (Json.obj fs) ∧
    do_GET "/v1/models" (Except.error f) = .error (errorStatus f) ∧
    errorStatus .ssl = 502 ∧ errorStatus .connection = 503 ∧
    errorStatus .timeout = 504 ∧ errorStatus .other = 500 := by
  refine ⟨?_, ?_, ?_, rfl, rfl, rfl, rfl⟩ <;>
    simp [do_POST, do_GET, hcl, setStreamFalse]

/-- Witness for C7 at a concrete input: an SSL fault on a well-formed POST
maps to 502. -/
theorem transport_fault_mapped_once_witness :
    (do_POST 50 0 (some "3") (BodyParse.json (Json.obj []))
        (fun _ => Except.error TransportFault.ssl)).outcome =
      ClientOutcome.error 502 :=
  (transport_fault_mapped_once 50 0 (some "3") 3 [] TransportFault.ssl rfl).1

/-- C3 (amended): when the backend replies 200 with a JSON `Content-Type` but
`response.json()` fails, the handler falls back to writing the raw body bytes
unmodified — but under the SSE headers it already sent (status 200,
`text/event-stream`, `no-cache`, `Connection: close`), not under the
passthrough allow-list; no error is surfaced to the client. -/
theorem parse_failure_streams_raw_body (sz : Nat) (now : Int)
    (resp : BackendResponse) (hst : resp.status = 200)
    (hct : strContains (headerGet resp.headers "Content-Type" "") "application/json" = true)
    (hpj : resp.parsedJson = none) :
    respondToBackendPOST sz now resp =
      .response { status := 200, headers := sseHeaders, body := [resp.body] } := by
  unfold respondToBackendPOST
  rw [hst, hct, hpj]
  simp

/-- Witness for the amended C3 at a concrete backend response. -/
theorem parse_failure_streams_raw_body_witness :
    respondToBackendPOST 50 0
        ⟨200, [("Content-Type", "application/json"), ("Date", "today")], "oops", none⟩ =
      ClientOutcome.response ⟨200, sseHeaders, ["oops"]⟩ :=
  parse_failure_streams_raw_body 50 0
    ⟨200, [("Content-Type", "application/json"), ("Date", "today")], "oops", none⟩
    rfl (by decide) rfl

/-- Counterexample to C3 as stated: on a 200/JSON response whose body fails to
parse, the headers the client has been sent are the three SSE headers, not the
allow-listed subset of the backend headers required by the claim. -/
theorem parse_failure_not_passthrough_counterexample :
    respondToBackendPOST 50 0
        ⟨200, [("Content-Type", "application/json"), ("Date", "today")], "oops", none⟩ =
      ClientOutcome.response ⟨200, sseHeaders, ["oops"]⟩ ∧
    sseHeaders ≠
      allowListedHeaders [("Content-Type", "application/json"), ("Date", "today")] := by
  constructor
  · decide
  · decide

/-- C6 (amended): the emitter is a pure function of the completion, the
configuration and the sampled clock; its output is independent of the clock —
so re-running it at a different time gives the identical chunk sequence —
whenever the completion has a non-empty `choices` list and carries a `created`
field.  (Otherwise `int(time.time())` leaks into the chunks.) -/
theorem emitter_deterministic_with_created (sz : Nat) (now1 now2 : Int)
    (rd : Json) (c : Json) (hcr : rd.get "created" = some c)
    (hcb : choicesBranchTaken rd = true) :
    simulate_streaming sz now1 rd = simulate_streaming sz now2 rd := by
  rcases hv : rd.get "choices" with _ | v
  · unfold choicesBranchTaken at hcb
    rw [hv] at hcb
    cases hcb
  · obtain ⟨fs, rfl⟩ := Json.get_some_obj rd "choices" v hv
    have hbase : base_event_data (Json.obj fs) now1 =
        base_event_data (Json.obj fs) now2 := by
      unfold base_event_data
      rw [hcr]
      rfl
    unfold choicesBranchTaken at hcb
    rw [hv] at hcb
    match v, hcb with
    | .arr (choice :: rest), _ =>
      simp only [simulate_streaming, hv]
      rw [hbase]

/-- Witness for the amended C6 at a concrete completion carrying `created`. -/
theorem emitter_deterministic_with_created_witness :
    simulate_streaming 50 5
        (Json.obj [("created", .num 111), ("choices", .arr [.obj []])]) =
      simulate_streaming 50 99
        (Json.obj [("created", .num 111), ("choices", .arr [.obj []])]) :=
  emitter_deterministic_with_created 50 5 99
    (Json.obj [("created", .num 111), ("choices", .arr [.obj []])])
    (.num 111) rfl rfl

/-- Counterexample to C6 as stated: on a completion without `choices` the
emitter embeds `int(time.time())` in every chunk's `created`, so two runs at
different times differ. -/
theorem emitter_depends_on_clock_counterexample :
    simulate_streaming 50 0 (Json.obj []) ≠ simulate_streaming 50 1 (Json.obj []) := by
  intro h
  have h2 := congrArg (Option.map (List.map StreamChunk.created)) h
  simp [simulate_streaming, escapeChunk, escapeStopChunk, Json.get, getInFields] at h2

/-- C4: in every completed emitter run the chunk list is non-empty, every
chunk before the last has `finish_reason = None` on its choice, and the last
chunk's `finish_reason` is `"tool_calls"` when the tool-call branch was taken
and `"stop"` in the content, empty and escape branches. -/
theorem finish_reason_terminal_only (sz : Nat) (now : Int) (rd : Json)
    (chunks : List StreamChunk) (h : simulate_streaming sz now rd = some chunks) :
    chunks ≠ [] ∧
    (∀ ch ∈ chunks.dropLast, ∀ c ∈ ch.choices, c.finish_reason = none) ∧
    (∀ last, chunks.getLast? = some last → ∀ c ∈ last.choices,
      c.finish_reason = some (if toolBranchTaken rd then "tool_calls" else "stop")) := by
  rcases simulate_streaming_cases sz now rd chunks h with
    ⟨pieces, rfl, htb, _⟩ | ⟨tc, rfl, htb, _⟩ | ⟨rfl, htb, _⟩ | ⟨rfl, htb, _⟩
  · refine ⟨by simp, ?_, ?_⟩
    · rw [List.dropLast_concat]
      intro ch hch c hc
      rcases contentChunkSeq_mem _ _ ch hch with ⟨p, rfl | rfl⟩ <;>
        (simp [mkChunk] at hc; subst hc; rfl)
    · intro last hlast c hc
      rw [List.getLast?_concat] at hlast
      cases hlast
      simp [stopChunk, mkChunk] at hc
      subst hc
      simp [htb]
  · refine ⟨by simp, ?_, ?_⟩
    · intro ch hch
      simp at hch
    · intro last hlast c hc
      simp at hlast
      subst hlast
      simp [toolChunk, mkChunk] at hc
      subst hc
      simp [htb]
  · refine ⟨by simp, ?_, ?_⟩
    · intro ch hch
      simp at hch
    · intro last hlast c hc
      simp at hlast
      subst hlast
      simp [stopChunk, mkChunk] at hc
      subst hc
      simp [htb]
  · refine ⟨by simp, ?_, ?_⟩
    · intro ch hch c hc
      simp [List.dropLast] at hch
      subst hch
      simp [escapeChunk] at hc
      subst hc
      rfl
    · intro last hlast c hc
      simp [List.getLast?] at hlast
      subst hlast
      simp [escapeStopChunk] at hc
      subst hc
      simp [htb]

/-- Witness for C4 at a concrete tool-call completion: the sole choice of the
last (and only) chunk carries the tool-call terminal reason. -/
theorem finish_reason_terminal_only_witness :
    (ChunkChoice.mk 0
        ⟨some "assistant", some Json.null, some (Json.arr [Json.str "t"])⟩
        (some "tool_calls")).finish_reason = some
      (if toolBranchTaken (Json.obj [("choices", .arr [.obj [("message",
          .obj [("tool_calls", .arr [.str "t"])])]])])
       then "tool_calls" else "stop") :=
  (finish_reason_terminal_only 50 0
    (Json.obj [("choices", .arr [.obj [("message",
      .obj [("tool_calls", .arr [.str "t"])])]])])
    [toolChunk (base_event_data (Json.obj [("choices", .arr [.obj [("message",
      .obj [("tool_calls", .arr [.str "t"])])]])]) 0) (.arr [.str "t"])]
    rfl).2.2 _ rfl
    (ChunkChoice.mk 0
      ⟨some "assistant", some Json.null, some (Json.arr [Json.str "t"])⟩
      (some "tool_calls"))
    (List.mem_singleton_self _)

/-- C9: every emitted chunk, in every branch of the emitter (the escape hatch
included), has a `choices` list of exactly one element whose `index` is 0. -/
theorem chunks_single_choice_index_zero (sz : Nat) (now : Int) (rd : Json)
    (chunks : List StreamChunk) (h : simulate_streaming sz now rd = some chunks) :
    ∀ ch ∈ chunks, ch.choices.length = 1 ∧ ∀ c ∈ ch.choices, c.index = 0 := by
  rcases simulate_streaming_cases sz now rd chunks h with
    ⟨pieces, rfl, _, _⟩ | ⟨tc, rfl, _, _⟩ | ⟨rfl, _, _⟩ | ⟨rfl, _, _⟩
  · intro ch hch
    rcases List.mem_append.mp hch with hch | hch
    · rcases contentChunkSeq_mem _ _ ch hch with ⟨p, rfl | rfl⟩ <;>
        simp [mkChunk]
    · simp at hch
      subst hch
      simp [stopChunk, mkChunk]
  · intro ch hch
    simp at hch
    subst hch
    simp [toolChunk, mkChunk]
  · intro ch hch
    simp at hch
    subst hch
    simp [stopChunk, mkChunk]
  · intro ch hch
    rcases List.mem_cons.mp hch with rfl | hch
    · simp [escapeChunk]
    · simp at hch
      subst hch
      simp [escapeStopChunk]

/-- Witness for C9 at a concrete escape-hatch input: the escape chunk has one
choice and its choice has index 0. -/
theorem chunks_single_choice_index_zero_witness :
    (escapeChunk (Json.obj [("foo", Json.num 1)]) 0).choices.length = 1 ∧
    (ChunkChoice.mk 0
        ⟨none, some (Json.str (Json.dumps (Json.obj [("foo", Json.num 1)]))), none⟩
        none).index = 0 :=
  have h := chunks_single_choice_index_zero 50 0 (Json.obj [("foo", Json.num 1)]) _ rfl
    (escapeChunk (Json.obj [("foo", Json.num 1)]) 0) (List.mem_cons_self _ _)
  ⟨h.1, h.2
    (ChunkChoice.mk 0
      ⟨none, some (Json.str (Json.dumps (Json.obj [("foo", Json.num 1)]))), none⟩
      none)
    (List.mem_singleton_self _)⟩

/-- C2 (amended): every emitted chunk carries `id` copied from the source
completion (placeholder when absent).  In the branches with a usable `choices`
list, `object`, `created` and `model` are likewise copied with defaults — so
`object` is the source completion's own `object` value when present, not the
literal chunk string.  In the escape-hatch branch `object` is the literal
`"chat.completion.chunk"`, `created` is the current time and `model` is the
`"unknown-model"` placeholder regardless of the source fields. -/
theorem chunk_metadata_copied (sz : Nat) (now : Int) (rd : Json)
    (chunks : List StreamChunk) (h : simulate_streaming sz now rd = some chunks) :
    ∀ ch ∈ chunks,
      ch.id = (rd.get "id").getD (.str "chatcmpl-default-id") ∧
      (choicesBranchTaken rd = true →
        ch.object = (rd.get "object").getD (.str "chat.completion.chunk") ∧
        ch.created = (rd.get "created").getD (.num now) ∧
        ch.model = (rd.get "model").getD (.str "gpt-3.5-turbo-0613")) ∧
      (choicesBranchTaken rd = false →
        ch.object = .str "chat.completion.chunk" ∧
        ch.created = .num now ∧
        ch.model = .str "unknown-model") := by
  rcases simulate_streaming_cases sz now rd chunks h with
    ⟨pieces, rfl, _, hcb⟩ | ⟨tc, rfl, _, hcb⟩ | ⟨rfl, _, hcb⟩ | ⟨rfl, _, hcb⟩
  · intro ch hch
    have hfields : ch.id = (base_event_data rd now).id ∧
        ch.object = (base_event_data rd now).object ∧
        ch.created = (base_event_data rd now).created ∧
        ch.model = (base_event_data rd now).model := by
      rcases List.mem_append.mp hch with hch | hch
      · rcases contentChunkSeq_mem _ _ ch hch with ⟨p, rfl | rfl⟩ <;>
          exact ⟨rfl, rfl, rfl, rfl⟩
      · simp at hch
        subst hch
        exact ⟨rfl, rfl, rfl, rfl⟩
    refine ⟨hfields.1, fun _ => ⟨hfields.2.1, hfields.2.2.1, hfields.2.2.2⟩, ?_⟩
    intro hf
    rw [hcb] at hf
    cases hf
  · intro ch hch
    simp at hch
    subst hch
    refine ⟨rfl, fun _ => ⟨rfl, rfl, rfl⟩, ?_⟩
    intro hf
    rw [hcb] at hf
    cases hf
  · intro ch hch
    simp at hch
    subst hch
    refine ⟨rfl, fun _ => ⟨rfl, rfl, rfl⟩, ?_⟩
    intro hf
    rw [hcb] at hf
    cases hf
  · intro ch hch
    rcases List.mem_cons.mp hch with rfl | hch
    · refine ⟨rfl, ?_, fun _ => ⟨rfl, rfl, rfl⟩⟩
      intro ht
      rw [hcb] at ht
      cases ht
    · simp at hch
      subst hch
      refine ⟨rfl, ?_, fun _ => ⟨rfl, rfl, rfl⟩⟩
      intro ht
      rw [hcb] at ht
      cases ht

/-- Witness for the amended C2 at a concrete completion whose `object` is
`"chat.completion"`: the emitted chunk copies `id` default and the source's
own `object` value. -/
theorem chunk_metadata_copied_witness :
    (stopChunk (base_event_data
        (Json.obj [("object", Json.str "chat.completion"),
          ("choices", Json.arr [Json.obj []])]) 0)).id =
      Json.str "chatcmpl-default-id" ∧
    (stopChunk (base_event_data
        (Json.obj [("object", Json.str "chat.completion"),
          ("choices", Json.arr [Json.obj []])]) 0)).object =
      Json.str "chat.completion" :=
  have h := chunk_metadata_copied 50 0
    (Json.obj [("object", Json.str "chat.completion"),
      ("choices", Json.arr [Json.obj []])])
    _ rfl
    (stopChunk (base_event_data
      (Json.obj [("object", Json.str "chat.completion"),
        ("choices", Json.arr [Json.obj []])]) 0))
    (List.mem_singleton_self _)
  ⟨h.1, (h.2.1 rfl).1⟩

/-- Counterexample to C2 as stated: a completion whose `object` field is
`"chat.completion"` produces chunks whose `object` is `"chat.completion"`, not
the literal `"chat.completion.chunk"` the claim requires on every chunk. -/
theorem chunk_object_not_literal_counterexample :
    (simulate_streaming 50 0
        (Json.obj [("object", Json.str "chat.completion"),
          ("choices", Json.arr [Json.obj []])])).map
      (List.map StreamChunk.object) =
      some [Json.str "chat.completion"] ∧
    Json.str "chat.completion" ≠ Json.str "chat.completion.chunk" := by
  constructor
  · rfl
  · intro h
    injection h with h2
    exact absurd h2 (by decide)

/-- C5: when the first choice's message has `tool_calls` present and non-empty,
the emitter produces exactly one chunk, whose delta is
role `"assistant"`, content `null`, `tool_calls` as received, with
`finish_reason = "tool_calls"`; no content chunks and no trailing `"stop"`
chunk are emitted, regardless of the value of `content`. -/
theorem tool_calls_single_chunk (sz : Nat) (now : Int)
    (fs cfs mfs : List (String × Json)) (rest : List Json)
    (t : Json) (ts : List Json)
    (hch : (Json.obj fs).get "choices" = some (.arr (Json.obj cfs :: rest)))
    (hmsg : ((Json.obj cfs).get "message").getD (.obj []) = .obj mfs)
    (htool : (Json.obj mfs).get "tool_calls" = some (.arr (t :: ts))) :
    simulate_streaming sz now (Json.obj fs) =
      some [toolChunk (base_event_data (Json.obj fs) now) (.arr (t :: ts))] ∧
    (toolChunk (base_event_data (Json.obj fs) now) (.arr (t :: ts))).choices =
      [⟨0, ⟨some "assistant", some Json.null, some (.arr (t :: ts))⟩,
        some "tool_calls"⟩] := by
  constructor
  · simp only [simulate_streaming, hch]
    simp only [mainBranch, hmsg, htool]
    simp [Json.truthy]
  · rfl

/-- Witness for C5 at a concrete completion with both tool calls and content:
only the tool-call chunk is emitted. -/
theorem tool_calls_single_chunk_witness :
    simulate_streaming 50 0 (Json.obj [("choices", Json.arr [Json.obj [("message",
        Json.obj [("content", Json.str "ignored"),
          ("tool_calls", Json.arr [Json.str "t"])])]])]) =
      some [toolChunk (base_event_data (Json.obj [("choices", Json.arr [Json.obj [("message",
          Json.obj [("content", Json.str "ignored"),
            ("tool_calls", Json.arr [Json.str "t"])])]])]) 0)
        (.arr [Json.str "t"])] :=
  (tool_calls_single_chunk 50 0
    [("choices", Json.arr [Json.obj [("message",
      Json.obj [("content", Json.str "ignored"),
        ("tool_calls", Json.arr [Json.str "t"])])]])]
    [("message", Json.obj [("content", Json.str "ignored"),
      ("tool_calls", Json.arr [Json.str "t"])])]
    [("content", Json.str "ignored"), ("tool_calls", Json.arr [Json.str "t"])]
    [] (Json.str "t") [] rfl rfl rfl).1

/-- C1: for a completion whose first choice's message carries non-empty string
content `s` and no truthy `tool_calls` (the content-streaming branch), and any
chunk size `C > 0`, the emitter emits exactly `⌈len(s)/C⌉ + 1` chunks: one per
consecutive non-overlapping slice of `s` in original order (every slice of
length `C` except possibly the last, none empty), each slice carried verbatim
as that chunk's sole `delta.content`, followed by one terminal chunk with an
empty delta; concatenating the slices in order reproduces `s` exactly. -/
theorem content_branch_stream (C : Nat) (hC : 0 < C) (now : Int)
    (fs cfs mfs : List (String × Json)) (rest : List Json) (s : String)
    (hs : s ≠ "")
    (hch : (Json.obj fs).get "choices" = some (.arr (Json.obj cfs :: rest)))
    (hmsg : ((Json.obj cfs).get "message").getD (.obj []) = .obj mfs)
    (htool : (((Json.obj mfs).get "tool_calls").getD .null).truthy = false)
    (hcont : ((Json.obj mfs).get "content").getD (.str "") = .str s) :
    simulate_streaming C now (Json.obj fs) =
      some (contentChunkSeq (base_event_data (Json.obj fs) now)
          ((sliceChunks C s.data).map (fun l => Json.str (String.mk l))) ++
        [stopChunk (base_event_data (Json.obj fs) now)]) ∧
    (contentChunkSeq (base_event_data (Json.obj fs) now)
          ((sliceChunks C s.data).map (fun l => Json.str (String.mk l))) ++
        [stopChunk (base_event_data (Json.obj fs) now)]).length =
      (s.data.length + C - 1) / C + 1 ∧
    (contentChunkSeq (base_event_data (Json.obj fs) now)
          ((sliceChunks C s.data).map (fun l => Json.str (String.mk l)))).map
        (fun ch => ch.choices.map (fun c => c.delta.content)) =
      (sliceChunks C s.data).map (fun l => [some (Json.str (String.mk l))]) ∧
    (sliceChunks C s.data).flatten = s.data ∧
    (∀ l ∈ (sliceChunks C s.data).dropLast, l.length = C) ∧
    (∀ l ∈ sliceChunks C s.data, l ≠ [] ∧ l.length ≤ C) ∧
    (stopChunk (base_event_data (Json.obj fs) now)).choices.map
        (fun c => (c.delta, c.finish_reason)) =
      [((⟨none, none, none⟩ : Delta), some "stop")] := by
  have hC1 : 1 ≤ C := hC
  refine ⟨?_, ?_, ?_, sliceChunks_flatten C hC1 s.data,
    sliceChunks_dropLast C hC1 s.data, sliceChunks_mem C hC1 s.data, rfl⟩
  · simp only [simulate_streaming, hch]
    simp only [mainBranch, hmsg, htool, hcont]
    simp [Json.truthy, hs, pySlices, Nat.pos_iff_ne_zero.mp hC]
  · rw [List.length_append, contentChunkSeq_length, List.length_map,
      sliceChunks_length C hC1]
    rfl
  · rw [contentChunkSeq_contents, List.map_map]
    rfl

/-- Witness for C1: spec Scenario A (`"Hello, world!"`, chunk size 5). -/
theorem content_branch_stream_witness :
    simulate_streaming 5 0 (Json.obj [("choices", Json.arr [Json.obj [("message",
        Json.obj [("content", Json.str "Hello, world!")])]])]) =
      some (contentChunkSeq (base_event_data (Json.obj [("choices",
            Json.arr [Json.obj [("message",
            Json.obj [("content", Json.str "Hello, world!")])]])]) 0)
          ((sliceChunks 5 "Hello, world!".data).map (fun l => Json.str (String.mk l))) ++
        [stopChunk (base_event_data (Json.obj [("choices",
            Json.arr [Json.obj [("message",
            Json.obj [("content", Json.str "Hello, world!")])]])]) 0)]) :=
  (content_branch_stream 5 (by decide) 0
    [("choices", Json.arr [Json.obj [("message",
      Json.obj [("content", Json.str "Hello, world!")])]])]
    [("message", Json.obj [("content", Json.str "Hello, world!")])]
    [("content", Json.str "Hello, world!")]
    [] "Hello, world!" (by decide) rfl rfl rfl rfl).1

end LlamaStream
